import Mathlib

/-!
# Celebra — shallow embedding and verification

This file embeds, in Lean 4, the logic of the Celebra repository
(`api/gemini.js`: a serverless relay handler followed by the browser client
script) and proves properties of the embedded definitions.

Embedded components:
* a model of JSON-decoded JavaScript values (`JSValue`) with the JS notions
  of truthiness, string coercion and property access used by the source;
* the transcript store (`loadHistory`, `saveHistory`, `addMessageToHistory`,
  source lines 139-172 of the concatenated file);
* the response normalizer (`extractTextFromResponse`, lines 359-402);
* the relay request handler (`handler`, lines 5-104);
* the dispatch cascade of the form submit handler (lines 451-587).
-/

namespace Celebra

/-- JSON-decoded JavaScript values, as produced by `JSON.parse` plus the
`undefined` value (result of a missing property).  Numbers are modelled as
integers; no claim involves non-integral numbers. -/
inductive JSValue where
  | undefined : JSValue
  | null : JSValue
  | bool : Bool → JSValue
  | num : Int → JSValue
  | str : String → JSValue
  | arr : List JSValue → JSValue
  | obj : List (String × JSValue) → JSValue
deriving Repr, Inhabited

/-- JS truthiness: `undefined`, `null`, `false`, `0` and `""` are falsy,
everything else (including every object and array) is truthy. -/
def jsTruthy : JSValue → Bool
  | .undefined => false
  | .null => false
  | .bool b => b
  | .num n => n != 0
  | .str s => !s.isEmpty
  | .arr _ => true
  | .obj _ => true

/-- Property access `v[k]` on values where it does not throw: objects give the
field (JSON objects have unique keys), everything else gives `undefined`.
Accessing a property of `null`/`undefined` throws in JS; call sites that can
reach that case go through `jsFieldE` instead. -/
def jsGetField (v : JSValue) (k : String) : JSValue :=
  match v with
  | .obj fs =>
    match fs.find? (fun p => p.1 == k) with
    | some p => p.2
    | none => .undefined
  | _ => .undefined

/-- Property access that models the JS `TypeError` thrown when the base value
is `null` or `undefined`. -/
def jsFieldE (v : JSValue) (k : String) : Except Unit JSValue :=
  match v with
  | .undefined => .error ()
  | .null => .error ()
  | _ => .ok (jsGetField v k)

/-- `String(n)` for our integer model of JS numbers. -/
def intToJsString (n : Int) : String := toString n

mutual
/-- JS string conversion `String(v)`. Arrays stringify by joining element
strings with commas (`Array.prototype.toString`), objects give
`"[object Object]"`. -/
def jsToString : JSValue → String
  | .undefined => "undefined"
  | .null => "null"
  | .bool true => "true"
  | .bool false => "false"
  | .num n => intToJsString n
  | .str s => s
  | .arr xs => jsArrToString xs
  | .obj _ => "[object Object]"

/-- `Array.prototype.join(",")`: `null`/`undefined` elements become the empty
string, other elements their string conversion. -/
def jsArrToString : List JSValue → String
  | [] => ""
  | [x] =>
    match x with
    | .undefined => ""
    | .null => ""
    | v => jsToString v
  | x :: xs =>
    (match x with
     | .undefined => ""
     | .null => ""
     | v => jsToString v) ++ "," ++ jsArrToString xs
end

/-- `v || ''` — the subexpression used by the source as `m.text || ''` and
`p.text || ''`. -/
def jsOrEmptyStr (v : JSValue) : JSValue :=
  if jsTruthy v then v else .str ""

/-! ## Transcript store (source lines 132-174)

`HISTORY_MAX_MESSAGES = 16`, `HISTORY_MAX_CHARS = 8000`.  The persisted state
under the single storage key is modelled as `Option JSValue`: `none` is a
missing key (or unparseable stored string, which `loadHistory` treats the same
way through its `catch`), `some v` is the JSON-decoded stored value. -/

def HISTORY_MAX_MESSAGES : Nat := 16

def HISTORY_MAX_CHARS : Nat := 8000

/-- One in-memory turn as built by `loadHistory`/`addMessageToHistory`:
`role` is carried through unchanged (whatever value storage held), `text` is
always a string after `String(m.text || '')`. -/
structure Turn where
  role : JSValue
  text : String
deriving Repr

/-- `arr.slice(-n)`: the last `n` elements (all of them when fewer). -/
def sliceLast (n : Nat) {α : Type} (xs : List α) : List α :=
  xs.drop (xs.length - n)

/-- The body of the per-entry mapping of `loadHistory` (line 145),
`m => ({ role: m.role, text: String(m.text || '') })`, for an entry on which
the property accesses do not throw (any value other than `null`/`undefined`:
on primitives they merely yield `undefined`). -/
def loadEntryCoerce (m : JSValue) : Turn :=
  ⟨jsGetField m "role", jsToString (jsOrEmptyStr (jsGetField m "text"))⟩

/-- The per-entry mapping with its JS error behavior: `m.role` on a `null`
or `undefined` array element throws a `TypeError`, which escapes the `map`
and is handled by `loadHistory`'s own `catch` (lines 147-149). -/
def loadEntryCoerceE (m : JSValue) : Except Unit Turn :=
  match m with
  | .null => .error ()
  | .undefined => .error ()
  | _ => .ok (loadEntryCoerce m)

/-- `Array.prototype.map` over the trimmed entries: the first throwing entry
aborts the whole call, propagating the exception. -/
def mapLoadEntriesE : List JSValue → Except Unit (List Turn)
  | [] => .ok []
  | m :: rest =>
    match loadEntryCoerceE m with
    | .error e => .error e
    | .ok t =>
      match mapLoadEntriesE rest with
      | .error e => .error e
      | .ok ts => .ok (t :: ts)

/-- The `catch` of `loadHistory` (lines 147-149): a `TypeError` thrown while
mapping the kept entries makes the whole call return `[]`. -/
def catchToEmpty (r : Except Unit (List Turn)) : List Turn :=
  match r with
  | .ok ts => ts
  | .error _ => []

/-- `loadHistory()` (lines 139-150): missing/corrupt storage or a non-array
value gives `[]`; an array is cut to its last 16 entries and each entry is
mapped to `{ role: m.role, text: String(m.text || '') }`; a `TypeError`
thrown by that mapping (a `null`/`undefined` entry among the kept 16) is
caught and the whole call returns `[]`. -/
def loadHistory (stored : Option JSValue) : List Turn :=
  match stored with
  | none => []
  | some v =>
    match v with
    | .arr xs => catchToEmpty (mapLoadEntriesE (sliceLast HISTORY_MAX_MESSAGES xs))
    | _ => []

/-- `m.text ? m.text.length : 0` — the per-turn contribution to the running
total in `saveHistory` (an empty string is falsy and contributes 0, which is
also its length). -/
def turnChars (t : Turn) : Nat := t.text.length

/-- Total text length of a turn list, as accumulated by `saveHistory`. -/
def totalChars (l : List Turn) : Nat := (l.map turnChars).sum

/-- The body of the eviction loop of `saveHistory` (lines 157-160):
`while(out.length > 1 && total > HISTORY_MAX_CHARS)` drop the oldest turn
(`out.shift()`).  The running `total` in the source equals the recomputed
total of the remaining list, so the loop is modelled by recomputation.  The
loop removes one element per iteration, so `out.length` iterations always
suffice; `fuel` is instantiated with the initial length in `evictLoop`. -/
def evictGo : Nat → List Turn → List Turn
  | 0, out => out
  | fuel + 1, out =>
    if 1 < out.length ∧ HISTORY_MAX_CHARS < totalChars out then
      evictGo fuel out.tail
    else out

/-- The eviction loop of `saveHistory`, run to completion. -/
def evictLoop (out : List Turn) : List Turn :=
  evictGo out.length out

/-- The list `saveHistory` persists (lines 152-163): last 16 entries, then the
character-budget eviction loop. -/
def saveHistoryList (hist : List Turn) : List Turn :=
  evictLoop (sliceLast HISTORY_MAX_MESSAGES hist)

/-- `JSON.stringify` of one turn record `{role: ..., text: ...}`; a field
holding `undefined` is omitted by `JSON.stringify`. -/
def turnToJS (t : Turn) : JSValue :=
  match t.role with
  | .undefined => .obj [("text", .str t.text)]
  | r => .obj [("role", r), ("text", .str t.text)]

/-- `saveHistory(hist)` (lines 152-163): the new stored value.  The guard
`if(!Array.isArray(hist)) return` cannot fire here because the model's input
is already a list; `setItem` failures (swallowed by the source) leave the old
value, which callers of this function account for by keeping the old state. -/
def saveHistory (hist : List Turn) : JSValue :=
  .arr ((saveHistoryList hist).map turnToJS)

/-- `addMessageToHistory(role, text)` (lines 165-172) as a transformer of the
persisted state.  `role`/`text` model JS strings or `null`/`undefined`
(`none`); the guard `!role || typeof text === 'undefined' || text === null`
returns without touching storage, otherwise the turn
`{ role: role === 'assistant' ? 'assistant' : 'user', text: String(text) }`
is pushed onto the loaded transcript and the result saved. -/
def addMessageToHistory (stored : Option JSValue) (role : Option String)
    (text : Option String) : Option JSValue :=
  match role, text with
  | none, _ => stored
  | some _, none => stored
  | some r, some t =>
    if r = "" then stored
    else
      some (saveHistory
        (loadHistory stored ++
          [⟨.str (if r = "assistant" then "assistant" else "user"), t⟩]))

/-- `clearHistory()` (line 174). -/
def clearHistory (_stored : Option JSValue) : Option JSValue := none

/-! ## Measurements of the persisted value, and the store invariant -/

/-- Number of entries the persisted value holds (0 when nothing sensible is
stored). -/
def storedCount : Option JSValue → Nat
  | some (.arr xs) => xs.length
  | _ => 0

/-- Text length of one persisted entry, measured the way the store reads it
back (`String(m.text || '').length`). -/
def entryTextLen (m : JSValue) : Nat :=
  (jsToString (jsOrEmptyStr (jsGetField m "text"))).length

/-- Total text length of the persisted value. -/
def storedTextChars : Option JSValue → Nat
  | some (.arr xs) => (xs.map entryTextLen).sum
  | _ => 0

/-- Run a sequence of `append(role, text)` calls against an initially empty
persisted transcript. -/
def runAppends (ops : List (Option String × Option String)) : Option JSValue :=
  ops.foldl (fun s op => addMessageToHistory s op.1 op.2) none

/-! ## Store lemmas -/

theorem sliceLast_length {α : Type} (n : Nat) (xs : List α) :
    (sliceLast n xs).length = xs.length - (xs.length - n) := by
  simp [sliceLast]

theorem sliceLast_of_le {α : Type} {n : Nat} {xs : List α} (h : xs.length ≤ n) :
    sliceLast n xs = xs := by
  simp [sliceLast, Nat.sub_eq_zero_of_le h]

theorem sliceLast_sliceLast {α : Type} (n : Nat) (xs : List α) :
    sliceLast n (sliceLast n xs) = sliceLast n xs := by
  apply sliceLast_of_le
  have := sliceLast_length n xs
  omega

theorem mapLoadEntriesE_length {ms : List JSValue} {ts : List Turn}
    (h : mapLoadEntriesE ms = .ok ts) : ts.length = ms.length := by
  induction ms generalizing ts with
  | nil =>
    rw [mapLoadEntriesE] at h
    cases h
    rfl
  | cons m rest ih =>
    rw [mapLoadEntriesE] at h
    cases hc : loadEntryCoerceE m with
    | error e => rw [hc] at h; cases h
    | ok t =>
      rw [hc] at h
      cases hr : mapLoadEntriesE rest with
      | error e => rw [hr] at h; cases h
      | ok ts2 =>
        rw [hr] at h
        cases h
        simp [ih hr]

theorem mapLoadEntriesE_ok {ms : List JSValue}
    (h : ∀ m ∈ ms, m ≠ JSValue.null ∧ m ≠ JSValue.undefined) :
    mapLoadEntriesE ms = .ok (ms.map loadEntryCoerce) := by
  induction ms with
  | nil => rfl
  | cons m rest ih =>
    obtain ⟨h1, h2⟩ := h m (by simp)
    have hm : loadEntryCoerceE m = .ok (loadEntryCoerce m) := by
      cases m <;> first
        | rfl
        | exact absurd rfl h1
        | exact absurd rfl h2
    rw [mapLoadEntriesE, hm, ih (fun x hx => h x (by simp [hx]))]
    rfl

theorem evictGo_length_le (fuel : Nat) (out : List Turn) :
    (evictGo fuel out).length ≤ out.length := by
  induction fuel generalizing out with
  | zero => simp [evictGo]
  | succ n ih =>
    rw [evictGo]
    split
    · exact le_trans (ih out.tail) (by simp [List.length_tail])
    · exact le_rfl

theorem evictGo_ne_nil (fuel : Nat) (out : List Turn) (h : out ≠ []) :
    evictGo fuel out ≠ [] := by
  induction fuel generalizing out with
  | zero => simpa [evictGo] using h
  | succ n ih =>
    rw [evictGo]
    split
    · next hc =>
      apply ih
      have : 1 < out.length := hc.1
      cases out with
      | nil => simp at this
      | cons a l =>
        simp only [List.tail_cons]
        intro hnil
        subst hnil
        simp at this
    · exact h

theorem evictGo_not_over (fuel : Nat) (out : List Turn)
    (hf : out.length ≤ fuel + 1) :
    ¬(1 < (evictGo fuel out).length ∧
      HISTORY_MAX_CHARS < totalChars (evictGo fuel out)) := by
  induction fuel generalizing out with
  | zero =>
    intro hcon
    have h1 : 1 < out.length := by
      simpa [evictGo] using hcon.1
    omega
  | succ n ih =>
    rw [evictGo]
    split
    · next hc =>
      apply ih
      have := hc.1
      simp only [List.length_tail]
      omega
    · next hc => exact hc

theorem saveHistoryList_length_le (hist : List Turn) :
    (saveHistoryList hist).length ≤ HISTORY_MAX_MESSAGES := by
  have h1 := evictGo_length_le (sliceLast HISTORY_MAX_MESSAGES hist).length
    (sliceLast HISTORY_MAX_MESSAGES hist)
  have h2 := sliceLast_length HISTORY_MAX_MESSAGES hist
  simp only [saveHistoryList, evictLoop]
  omega

theorem saveHistoryList_chars (hist : List Turn) :
    totalChars (saveHistoryList hist) ≤ HISTORY_MAX_CHARS ∨
      (saveHistoryList hist).length = 1 := by
  have h := evictGo_not_over (sliceLast HISTORY_MAX_MESSAGES hist).length
    (sliceLast HISTORY_MAX_MESSAGES hist) (by omega)
  simp only [saveHistoryList, evictLoop] at *
  by_cases hlen : 1 < (evictGo (sliceLast HISTORY_MAX_MESSAGES hist).length
      (sliceLast HISTORY_MAX_MESSAGES hist)).length
  · left
    by_contra hgt
    exact h ⟨hlen, by omega⟩
  · -- length ≤ 1: either empty (total 0) or a single turn
    rcases Nat.lt_or_ge (evictGo (sliceLast HISTORY_MAX_MESSAGES hist).length
        (sliceLast HISTORY_MAX_MESSAGES hist)).length 1 with h0 | h1
    · left
      have : evictGo (sliceLast HISTORY_MAX_MESSAGES hist).length
          (sliceLast HISTORY_MAX_MESSAGES hist) = [] := by
        cases hres : evictGo (sliceLast HISTORY_MAX_MESSAGES hist).length
            (sliceLast HISTORY_MAX_MESSAGES hist) with
        | nil => rfl
        | cons a l => rw [hres] at h0; simp at h0
      rw [this]
      simp [totalChars]
    · right
      omega

theorem jsGetField_turnToJS_text (t : Turn) :
    jsGetField (turnToJS t) "text" = .str t.text := by
  cases t with
  | mk r s => cases r <;> rfl

theorem jsToString_orEmpty_str (s : String) :
    jsToString (jsOrEmptyStr (.str s)) = s := by
  by_cases h : s.isEmpty
  · have : s = "" := (String.isEmpty_iff s).mp h
    subst this
    rfl
  · simp [jsOrEmptyStr, jsTruthy, h, jsToString]

theorem entryTextLen_turnToJS (t : Turn) :
    entryTextLen (turnToJS t) = t.text.length := by
  rw [entryTextLen, jsGetField_turnToJS_text, jsToString_orEmpty_str]

theorem storedCount_save (hist : List Turn) :
    storedCount (some (saveHistory hist)) = (saveHistoryList hist).length := by
  simp [storedCount, saveHistory]

theorem storedTextChars_save (hist : List Turn) :
    storedTextChars (some (saveHistory hist)) = totalChars (saveHistoryList hist) := by
  simp only [storedTextChars, saveHistory, totalChars, List.map_map]
  congr 1
  apply List.map_congr_left
  intro t _
  exact entryTextLen_turnToJS t

/-- The invariant the persisted transcript satisfies after any `saveHistory`,
and vacuously on the empty store. -/
def storedInv (s : Option JSValue) : Prop :=
  storedCount s ≤ HISTORY_MAX_MESSAGES ∧
    (storedTextChars s ≤ HISTORY_MAX_CHARS ∨ storedCount s = 1)

theorem storedInv_save (hist : List Turn) : storedInv (some (saveHistory hist)) := by
  constructor
  · rw [storedCount_save]
    exact saveHistoryList_length_le hist
  · rw [storedCount_save, storedTextChars_save]
    exact saveHistoryList_chars hist

theorem storedInv_addMessage (s : Option JSValue) (r t : Option String)
    (h : storedInv s) : storedInv (addMessageToHistory s r t) := by
  match r, t with
  | none, _ => exact h
  | some _, none => exact h
  | some r, some t =>
    rw [addMessageToHistory]
    split
    · exact h
    · exact storedInv_save _

theorem evictGo_of_not (fuel : Nat) (out : List Turn)
    (h : ¬(1 < out.length ∧ HISTORY_MAX_CHARS < totalChars out)) :
    evictGo fuel out = out := by
  cases fuel with
  | zero => rfl
  | succ n => rw [evictGo, if_neg h]

theorem loadEntryCoerce_record (r t : String) :
    loadEntryCoerce (.obj [("role", .str r), ("text", .str t)]) = ⟨.str r, t⟩ := by
  unfold loadEntryCoerce
  have h1 : jsGetField (.obj [("role", .str r), ("text", .str t)]) "role" = .str r := rfl
  have h2 : jsGetField (.obj [("role", .str r), ("text", .str t)]) "text" = .str t := rfl
  rw [h1, h2, jsToString_orEmpty_str]

/-! ## Claim theorems about the transcript store -/

/-- C1: for every sequence of `append(role, text)` calls starting from an
empty persisted transcript, the persisted transcript holds at most
`HISTORY_MAX_MESSAGES` (16) entries and at most `HISTORY_MAX_CHARS` (8000)
total text characters, except that when the total exceeds the character cap
exactly one turn remains (the single turn whose own text exceeds the cap).
Quantifying over all call sequences covers the state after each call of any
given sequence. -/
theorem append_sequences_respect_caps (ops : List (Option String × Option String)) :
    storedCount (runAppends ops) ≤ HISTORY_MAX_MESSAGES ∧
    (storedTextChars (runAppends ops) ≤ HISTORY_MAX_CHARS ∨
      (storedCount (runAppends ops) = 1 ∧
        HISTORY_MAX_CHARS < storedTextChars (runAppends ops))) := by
  have main : ∀ (l : List (Option String × Option String)) (s : Option JSValue),
      storedInv s → storedInv (l.foldl (fun s op => addMessageToHistory s op.1 op.2) s) := by
    intro l
    induction l with
    | nil => intro s hs; exact hs
    | cons op rest ih =>
      intro s hs
      exact ih _ (storedInv_addMessage _ _ _ hs)
  have hinv : storedInv (runAppends ops) :=
    main ops none ⟨by simp [storedCount], Or.inl (by simp [storedTextChars])⟩
  rcases hinv with ⟨h1, h2⟩
  refine ⟨h1, ?_⟩
  by_cases hc : storedTextChars (runAppends ops) ≤ HISTORY_MAX_CHARS
  · exact Or.inl hc
  · rcases h2 with h2 | h2
    · exact absurd h2 hc
    · exact Or.inr ⟨h2, lt_of_not_le hc⟩

/-- C5 counterexample: `"banana"` is not a recognized role (it is neither
`"user"` nor `"assistant"`), yet `append('banana', 'hi')` is not a no-op —
the guard at line 167 only rejects falsy roles, and line 169 coerces every
other role to `'user'`. -/
theorem append_unrecognized_role_appends :
    ("banana" ≠ "user" ∧ "banana" ≠ "assistant") ∧
    addMessageToHistory none (some "banana") (some "hi") ≠ none := by
  refine ⟨⟨by decide, by decide⟩, ?_⟩
  simp [addMessageToHistory]

/-- C5 amended: `append(role, text)` is a no-op exactly when `role` is null,
undefined or the empty string, or `text` is null or undefined; in every other
case it loads the current transcript, pushes exactly one turn at the end
(with the role coerced to `'user'` unless it is exactly `'assistant'`) and
persists the result via `save`. -/
theorem append_noop_and_push_cases :
    (∀ s t, addMessageToHistory s none t = s) ∧
    (∀ s r, addMessageToHistory s r none = s) ∧
    (∀ s t, addMessageToHistory s (some "") t = s) ∧
    (∀ s r t, r ≠ "" → addMessageToHistory s (some r) (some t) =
      some (saveHistory (loadHistory s ++
        [⟨.str (if r = "assistant" then "assistant" else "user"), t⟩]))) := by
  refine ⟨fun s t => rfl, ?_, ?_, ?_⟩
  · intro s r
    cases r <;> rfl
  · intro s t
    cases t with
    | none => rfl
    | some tt => simp [addMessageToHistory]
  · intro s r t hr
    simp [addMessageToHistory, hr]

theorem append_noop_and_push_cases_witness :
    addMessageToHistory none (some "user") (some "hi") =
      some (saveHistory (loadHistory none ++
        [⟨.str (if "user" = "assistant" then "assistant" else "user"), "hi"⟩])) :=
  append_noop_and_push_cases.2.2.2 none "user" "hi" (by decide)

/-- C7: on a well-formed persisted transcript (an array of `{role, text}`
records with string fields) that already satisfies both caps, `save(load())`
stores back exactly the same value: no further eviction happens. -/
theorem save_after_load_identity (l : List (String × String))
    (hlen : l.length ≤ HISTORY_MAX_MESSAGES)
    (hchars : (l.map (fun p => p.2.length)).sum ≤ HISTORY_MAX_CHARS) :
    saveHistory (loadHistory (some (.arr (l.map (fun p =>
      JSValue.obj [("role", .str p.1), ("text", .str p.2)])))))
      = .arr (l.map (fun p =>
      JSValue.obj [("role", .str p.1), ("text", .str p.2)])) := by
  have hsafe : ∀ m ∈ l.map (fun p =>
      JSValue.obj [("role", JSValue.str p.1), ("text", JSValue.str p.2)]),
      m ≠ JSValue.null ∧ m ≠ JSValue.undefined := by
    intro m hm
    obtain ⟨p, _, rfl⟩ := List.mem_map.mp hm
    exact ⟨fun h => JSValue.noConfusion h, fun h => JSValue.noConfusion h⟩
  have hload : loadHistory (some (.arr (l.map (fun p =>
      JSValue.obj [("role", .str p.1), ("text", .str p.2)]))))
      = l.map (fun p => (⟨.str p.1, p.2⟩ : Turn)) := by
    simp only [loadHistory]
    rw [sliceLast_of_le (by simpa using hlen), mapLoadEntriesE_ok hsafe]
    simp only [catchToEmpty, List.map_map]
    exact List.map_congr_left fun p _ => loadEntryCoerce_record p.1 p.2
  rw [hload]
  have htot : totalChars (l.map (fun p => (⟨.str p.1, p.2⟩ : Turn)))
      = (l.map (fun p => p.2.length)).sum := by
    simp only [totalChars, List.map_map]
    congr 1
  have hsl : saveHistoryList (l.map (fun p => (⟨.str p.1, p.2⟩ : Turn)))
      = l.map (fun p => (⟨.str p.1, p.2⟩ : Turn)) := by
    unfold saveHistoryList evictLoop
    rw [sliceLast_of_le (by simpa using hlen)]
    apply evictGo_of_not
    intro hc
    rw [htot] at hc
    exact absurd hchars (by omega)
  rw [saveHistory, hsl, List.map_map]
  congr 1

theorem save_after_load_identity_witness :
    saveHistory (loadHistory (some (.arr ([("user", "hi")].map (fun p =>
      JSValue.obj [("role", .str p.1), ("text", .str p.2)])))))
      = .arr ([("user", "hi")].map (fun p =>
      JSValue.obj [("role", .str p.1), ("text", .str p.2)])) :=
  save_after_load_identity [("user", "hi")] (by decide) (by decide)

/-- A stored entry carrying 4100 characters of text. -/
def bigStoredEntry : JSValue :=
  .obj [("role", .str "user"), ("text", .str (String.mk (List.replicate 4100 'a')))]

/-- C9: `load()` on any stored JSON array returns at most the most recent 16
entries and never looks at older ones (second conjunct: the result depends
only on the last 16 entries — older entries are dropped before the per-entry
mapping runs, so they can neither appear nor throw); whenever the kept
entries do not make the mapping throw (no `null`/`undefined` among the last
16 — the one case where `m.role` at line 145 throws and the `catch` returns
`[]`), the result is exactly those entries with each text field coerced to a
string (third conjunct); and the 8000-character budget is not enforced on
read — a stored array can load back with more than 8000 total characters
(fourth conjunct). -/
theorem load_trims_and_coerces :
    (∀ xs : List JSValue,
      (loadHistory (some (.arr xs))).length ≤ HISTORY_MAX_MESSAGES) ∧
    (∀ xs : List JSValue, loadHistory (some (.arr xs)) =
      loadHistory (some (.arr (sliceLast HISTORY_MAX_MESSAGES xs)))) ∧
    (∀ xs : List JSValue,
      (∀ m ∈ sliceLast HISTORY_MAX_MESSAGES xs,
        m ≠ JSValue.null ∧ m ≠ JSValue.undefined) →
      loadHistory (some (.arr xs)) =
        (sliceLast HISTORY_MAX_MESSAGES xs).map loadEntryCoerce) ∧
    (∃ xs : List JSValue,
      HISTORY_MAX_CHARS < totalChars (loadHistory (some (.arr xs)))) := by
  refine ⟨?_, ?_, ?_, ?_⟩
  · intro xs
    cases hres : mapLoadEntriesE (sliceLast HISTORY_MAX_MESSAGES xs) with
    | error e => simp [loadHistory, hres, catchToEmpty]
    | ok ts =>
      have h1 := mapLoadEntriesE_length hres
      have h2 := sliceLast_length HISTORY_MAX_MESSAGES xs
      simp only [loadHistory, hres, catchToEmpty]
      omega
  · intro xs
    simp only [loadHistory, sliceLast_sliceLast]
  · intro xs h
    simp only [loadHistory, mapLoadEntriesE_ok h, catchToEmpty]
  · refine ⟨[bigStoredEntry, bigStoredEntry], ?_⟩
    have hcoerce : loadEntryCoerce bigStoredEntry =
        ⟨.str "user", String.mk (List.replicate 4100 'a')⟩ :=
      loadEntryCoerce_record "user" (String.mk (List.replicate 4100 'a'))
    have hlen : (String.mk (List.replicate 4100 'a')).length = 4100 := by
      show (List.replicate 4100 'a').length = 4100
      exact List.length_replicate 4100 'a'
    have hload : loadHistory (some (.arr [bigStoredEntry, bigStoredEntry]))
        = [loadEntryCoerce bigStoredEntry, loadEntryCoerce bigStoredEntry] := rfl
    have htc : ∀ (r : JSValue) (s : String),
        totalChars [⟨r, s⟩, ⟨r, s⟩] = s.length + s.length := by
      intro r s
      simp [totalChars, turnChars]
    rw [hload, hcoerce, htc, hlen]
    norm_num [HISTORY_MAX_CHARS]

theorem load_trims_and_coerces_witness :
    loadHistory (some (.arr [bigStoredEntry])) =
      (sliceLast HISTORY_MAX_MESSAGES [bigStoredEntry]).map loadEntryCoerce :=
  load_trims_and_coerces.2.2.1 [bigStoredEntry] (by
    intro m hm
    have hs : sliceLast HISTORY_MAX_MESSAGES [bigStoredEntry] = [bigStoredEntry] := rfl
    rw [hs] at hm
    have hmeq : m = bigStoredEntry := by simpa using hm
    subst hmeq
    exact ⟨fun h => JSValue.noConfusion h, fun h => JSValue.noConfusion h⟩)

/-! ## Response normalizer (`extractTextFromResponse`, lines 359-402)

`raw` is either a string or a JSON-decoded value (the client obtains it via
`JSON.parse`, so it is a finite tree — the cycle guard `seen` of the source's
`walk` can never fire and is dropped).  Property access on `null`/`undefined`
throws a `TypeError` in JS; such accesses are modelled with `jsFieldE` and the
thrown error is routed, like the `catch` at line 400, to the
`JSON.stringify` fallback of line 401. -/

/-- One character of a JSON-stringified string. -/
def jsonEscapeChar (c : Char) : String :=
  if c = '"' then "\\\""
  else if c = '\\' then "\\\\"
  else if c = '\n' then "\\n"
  else if c = '\r' then "\\r"
  else if c = '\t' then "\\t"
  else String.singleton c

/-- `JSON.stringify` of a string value. -/
def jsonQuote (s : String) : String :=
  "\"" ++ String.join (s.toList.map jsonEscapeChar) ++ "\""

/-- Comma-join, as used by `JSON.stringify` for arrays and objects. -/
def joinComma : List String → String
  | [] => ""
  | [x] => x
  | x :: xs => x ++ "," ++ joinComma xs

mutual
/-- `JSON.stringify`: `undefined` stringifies to nothing (`none`). -/
def stringifyJson : JSValue → Option String
  | .undefined => none
  | .null => some "null"
  | .bool true => some "true"
  | .bool false => some "false"
  | .num n => some (intToJsString n)
  | .str s => some (jsonQuote s)
  | .arr xs => some ("[" ++ joinComma (stringifyArrElems xs) ++ "]")
  | .obj fs => some ("\x7b" ++ joinComma (stringifyObjFields fs) ++ "\x7d")

/-- Array elements: an `undefined` element renders as `null`. -/
def stringifyArrElems : List JSValue → List String
  | [] => []
  | x :: xs =>
    (match stringifyJson x with
     | some s => s
     | none => "null") :: stringifyArrElems xs

/-- Object fields: a field holding `undefined` is omitted. -/
def stringifyObjFields : List (String × JSValue) → List String
  | [] => []
  | kv :: rest =>
    match stringifyJson kv.2 with
    | none => stringifyObjFields rest
    | some sv => (jsonQuote kv.1 ++ ":" ++ sv) :: stringifyObjFields rest
end

/-- `typeof o.k === 'string' && o.k.trim()` — a string field with non-empty
trim, as tested by the source's `walk` for `"text"` and `"content"`. -/
def objStrField (fs : List (String × JSValue)) (k : String) : Option String :=
  match jsGetField (.obj fs) k with
  | .str s => if s.trim.isEmpty then none else some s
  | _ => none

mutual
/-- The generic depth-first fallback search of lines 380-397: on an object,
return its `"text"` then `"content"` field if a string with non-empty trim,
else recurse into its field values in order; on an array recurse into the
elements in order; primitives yield nothing.  (JSON arrays have no own
`"text"`/`"content"` properties, so the two field tests are vacuous on
arrays.) -/
def walk : JSValue → Option String
  | .arr xs => walkElems xs
  | .obj fs =>
    match objStrField fs "text" with
    | some s => some s
    | none =>
      match objStrField fs "content" with
      | some s => some s
      | none => walkFields fs
  | _ => none

/-- `for(const it of o){ const r = walk(it); if(r) return r; }` -/
def walkElems : List JSValue → Option String
  | [] => none
  | x :: xs =>
    match walk x with
    | some r => some r
    | none => walkElems xs

/-- `for(const k of Object.keys(o)){ const r = walk(o[k]); if(r) return r; }` -/
def walkFields : List (String × JSValue) → Option String
  | [] => none
  | kv :: rest =>
    match walk kv.2 with
    | some r => some r
    | none => walkFields rest
end

/-- The `"candidates"` matcher of lines 363-370.  `.error ()` models a
`TypeError` thrown by a property access on a `null`/`undefined` candidate or
part, which the `catch` at line 400 turns into the stringify fallback. -/
def candidatesPathE (raw : JSValue) : Except Unit (Option JSValue) :=
  match jsGetField raw "candidates" with
  | .arr (cand :: _) =>
    let inner : Except Unit (Option JSValue) :=
      if jsTruthy cand && jsTruthy (jsGetField cand "content") then
        let content := jsGetField cand "content"
        let fromParts : Except Unit (Option JSValue) :=
          match jsGetField content "parts" with
          | .arr (p0 :: _) =>
            match jsFieldE p0 "text" with
            | .error e => .error e
            | .ok t => .ok (if jsTruthy t then some (.str (jsToString t)) else none)
          | _ => .ok none
        match fromParts with
        | .error e => .error e
        | .ok (some v) => .ok (some v)
        | .ok none =>
          .ok (match jsGetField content "text" with
               | .str s => some (.str s)
               | _ => none)
      else .ok none
    match inner with
    | .error e => .error e
    | .ok (some v) => .ok (some v)
    | .ok none =>
      match jsFieldE cand "text" with
      | .error e => .error e
      | .ok t =>
        .ok (match t with
             | .str s => some (.str s)
             | _ => none)
  | _ => .ok none

/-- The `"output"` matcher of lines 371-377. -/
def outputPathE (raw : JSValue) : Except Unit (Option JSValue) :=
  match jsGetField raw "output" with
  | .arr (out :: _) =>
    if jsTruthy out then
      match jsGetField out "content" with
      | .str s => .ok (some (.str s))
      | .arr (c0 :: _) =>
        match jsFieldE c0 "text" with
        | .error e => .error e
        | .ok t => .ok (if jsTruthy t then some t else none)
      | _ => .ok none
    else .ok none
  | _ => .ok none

/-- `v[0]` where it cannot throw: first array element, first character of a
string, or the `"0"` property of an object; `undefined` otherwise. -/
def jsIndexZero (v : JSValue) : JSValue :=
  match v with
  | .arr (x :: _) => x
  | .str s =>
    match s.toList with
    | c :: _ => .str (String.singleton c)
    | [] => .undefined
  | .obj fs => jsGetField (.obj fs) "0"
  | _ => .undefined

/-- Optional-chaining step `v?.k`. -/
def optChainField (v : JSValue) (k : String) : JSValue :=
  match v with
  | .null => .undefined
  | .undefined => .undefined
  | _ => jsGetField v k

/-- Optional-chaining step `v?.[0]`. -/
def optChainIndexZero (v : JSValue) : JSValue :=
  match v with
  | .null => .undefined
  | .undefined => .undefined
  | _ => jsIndexZero v

/-- Line 378: `if(raw?.candidates?.[0]?.content?.parts?.[0]?.text) return
raw.candidates[0].content.parts[0].text` — fully optional-chained, so it
cannot throw; when the chained value is truthy the non-optional re-access in
the `return` yields that same value. -/
def path378 (raw : JSValue) : Option JSValue :=
  let t := optChainField (optChainIndexZero (optChainField (optChainField
    (optChainIndexZero (optChainField raw "candidates")) "content") "parts")) "text"
  if jsTruthy t then some t else none

/-- `JSON.stringify(raw)` with its own `catch` falling back to `String(raw)`
(line 401); in the model `stringifyJson` only fails on `undefined`, which is
falsy and never reaches this point. -/
def fallbackDump (raw : JSValue) : JSValue :=
  match stringifyJson raw with
  | some s => .str s
  | none => .str (jsToString raw)

/-- Lines 362-401 for a truthy, non-string `raw`: try the `"candidates"`
matcher, the `"output"` matcher, the line-378 chain and the generic walk in
order; a thrown `TypeError` (caught at line 400) or no match falls back to
`JSON.stringify(raw)`.  The walk's result is returned only if truthy
(`if(found) return found`). -/
def extractFromStructure (raw : JSValue) : JSValue :=
  match candidatesPathE raw with
  | .error _ => fallbackDump raw
  | .ok (some v) => v
  | .ok none =>
    match outputPathE raw with
    | .error _ => fallbackDump raw
    | .ok (some v) => v
    | .ok none =>
      match path378 raw with
      | some v => v
      | none =>
        match walk raw with
        | some s => if s.isEmpty then fallbackDump raw else .str s
        | none => fallbackDump raw

/-- `extractTextFromResponse(raw)` (lines 359-402): `null` for falsy input
(line 360: `if(!raw) return null`), the string itself for string input
(line 361), and the matcher chain otherwise. -/
def extractTextFromResponse (raw : JSValue) : Option JSValue :=
  if jsTruthy raw then
    match raw with
    | .str _ => some raw
    | _ => some (extractFromStructure raw)
  else none

/-! ## Claim theorems about the response normalizer -/

/-- C6 counterexample: the empty string is a string, yet
`extractTextFromResponse("")` returns `null` rather than the string
unchanged — `""` is falsy, so the `if(!raw) return null` guard at line 360
fires before the string test at line 361.  This also falsifies "returns null
exactly when the input is null or undefined". -/
theorem extract_empty_string_returns_null :
    extractTextFromResponse (.str "") = none ∧
    extractTextFromResponse (.str "") ≠ some (.str "") := by
  refine ⟨rfl, ?_⟩
  intro h
  rw [show extractTextFromResponse (.str "") = none from rfl] at h
  exact Option.noConfusion h

/-- C6 amended: `extractTextFromResponse` returns every *non-empty* string
input unchanged, and returns `null` exactly when the input is falsy (`null`,
`undefined`, `""`, `0` or `false`). -/
theorem extract_string_id_and_null_iff :
    (∀ s : String, s ≠ "" → extractTextFromResponse (.str s) = some (.str s)) ∧
    (∀ v : JSValue, extractTextFromResponse v = none ↔ jsTruthy v = false) := by
  constructor
  · intro s hs
    have hse : s.isEmpty = false := by
      cases h : s.isEmpty
      · rfl
      · exact absurd ((String.isEmpty_iff s).mp h) hs
    simp [extractTextFromResponse, jsTruthy, hse]
  · intro v
    cases h : jsTruthy v
    · simp [extractTextFromResponse, h]
    · cases v <;> simp_all [extractTextFromResponse]

theorem extract_string_id_and_null_iff_witness :
    extractTextFromResponse (.str "hi") = some (.str "hi") :=
  extract_string_id_and_null_iff.1 "hi" (by decide)

/-! ## Relay handler (`api/gemini.js`, lines 5-104)

The handler is modelled as a pure function of the environment, the current
time, the requester's rate-limit entry (the only entry of the per-IP map the
request can touch) and the request.  Its result carries the response (or the
decision to forward the validated body upstream — everything after the
`fetch` at line 81 depends on the network and is outside the model), the
response headers set on the way, and the rate-limit entry written back
(`none` when the map is untouched). -/

/-- Environment configuration read by the handler.  `rateLimitMax` and
`rateLimitWindow` are the values after `parseInt(... || default)` (60 and
3600 by default). -/
structure RelayEnv where
  apiKey : Option String
  allowedOrigins : Option String
  rateLimitMax : Nat
  rateLimitWindow : Nat

/-- One per-IP entry of the in-memory rate-limit map. -/
structure RateEntry where
  count : Nat
  reset : Nat
deriving Repr

/-- The parts of the incoming request the handler looks at. -/
structure RelayRequest where
  method : String
  origin : Option String
  body : JSValue

/-- The handler's externally visible decision. -/
inductive RelayOutcome where
  | reply (status : Nat) (error : String)
  | forward (payload : JSValue)

structure RelayResult where
  outcome : RelayOutcome
  headers : List (String × String)
  rateEntry : Option RateEntry

/-- The parsed origin allow-list: `ALLOWED_ORIGINS.split(',').map(trim).filter(Boolean)`. -/
def parseAllowList (s : String) : List String :=
  ((s.splitOn ",").map (fun x => x.trim)).filter (fun x => x ≠ "")

/-- Lines 26-34: with `ALLOWED_ORIGINS` set (non-empty — an empty string is
falsy and disables the check), the request origin must be in the list. -/
def originBlocked (env : RelayEnv) (req : RelayRequest) : Bool :=
  match env.allowedOrigins with
  | none => false
  | some s =>
    if s = "" then false
    else
      match req.origin with
      | some o => !(parseAllowList s).contains o
      | none => true

/-- Lines 43-48: look up / reset the requester's entry and increment it. -/
def bumpRateEntry (env : RelayEnv) (now : Nat) (prev : Option RateEntry) : RateEntry :=
  let entry :=
    match prev with
    | some e => if now > e.reset then RateEntry.mk 0 (now + env.rateLimitWindow) else e
    | none => RateEntry.mk 0 (now + env.rateLimitWindow)
  ⟨entry.count + 1, entry.reset⟩

/-- `String(p.text || '').length`, the per-part size measured at line 71. -/
def partTextLen (p : JSValue) : Nat :=
  (jsToString (jsOrEmptyStr (jsGetField p "text"))).length

/-- Line 71's test on one part.  Accessing `p.text` on a `null`/`undefined`
part throws; the `catch` at line 76 turns that into a 400. -/
def partTooLongE (p : JSValue) : Except Unit Bool :=
  match p with
  | .null => .error ()
  | .undefined => .error ()
  | _ => .ok (partTextLen p > 8000)

/-- The inner loop of lines 70-74 over one entry's parts. -/
def anyPartTooLongE : List JSValue → Except Unit Bool
  | [] => .ok false
  | p :: rest =>
    match partTooLongE p with
    | .error e => .error e
    | .ok true => .ok true
    | .ok false => anyPartTooLongE rest

/-- Lines 68-75 for one `contents` entry: entries without a `parts` array are
skipped (`continue`); accessing `c.parts` on a `null`/`undefined` entry
throws. -/
def entryTooLongE (c : JSValue) : Except Unit Bool :=
  match c with
  | .null => .error ()
  | .undefined => .error ()
  | _ =>
    match jsGetField c "parts" with
    | .arr ps => anyPartTooLongE ps
    | _ => .ok false

/-- The outer loop of lines 68-75 over the `contents` entries. -/
def anyEntryTooLongE : List JSValue → Except Unit Bool
  | [] => .ok false
  | c :: rest =>
    match entryTooLongE c with
    | .error e => .error e
    | .ok true => .ok true
    | .ok false => anyEntryTooLongE rest

/-- `typeof body === 'object'` combined with `!body`: only (non-null)
objects and arrays pass. -/
def jsObjectLike : JSValue → Bool
  | .arr _ => true
  | .obj _ => true
  | _ => false

/-- The payload validation of lines 56-79: `some msg` means the handler
replies 400 with `{error: msg}`, `none` means the body is forwarded.  A
thrown `TypeError` inside the validation is caught at line 76 and becomes a
400 `'Bad request'`. -/
def validateBody (body : JSValue) : Option String :=
  if !jsObjectLike body then some "Bad request: missing JSON body"
  else
    match jsGetField body "contents" with
    | .arr cs =>
      if cs.length = 0 || cs.length > 10 then some "Bad request: invalid contents"
      else
        match anyEntryTooLongE cs with
        | .error _ => some "Bad request"
        | .ok true => some "Bad request: message too long"
        | .ok false => none
    | _ => some "Bad request: invalid contents"

/-- The relay handler (lines 5-104) up to the forwarding decision. -/
def handler (env : RelayEnv) (now : Nat) (prev : Option RateEntry)
    (req : RelayRequest) : RelayResult :=
  if req.method ≠ "POST" then
    ⟨.reply 405 "Method not allowed", [("Allow", "POST")], none⟩
  else
    match env.apiKey with
    | none => ⟨.reply 500 "Server missing GEMINI_API_KEY environment variable", [], none⟩
    | some _ =>
      if originBlocked env req then ⟨.reply 403 "Origin not allowed", [], none⟩
      else
        -- CORS header is set (line 33) only when an allow-list is active
        let cors : List (String × String) :=
          match env.allowedOrigins with
          | some s =>
            if s = "" then []
            else
              match req.origin with
              | some o => [("Access-Control-Allow-Origin", o)]
              | none => []
          | none => []
        let entry := bumpRateEntry env now prev
        if entry.count > env.rateLimitMax then
          ⟨.reply 429 "Rate limit exceeded",
            cors ++ [("Retry-After", toString (entry.reset - now))], some entry⟩
        else
          match validateBody req.body with
          | some msg => ⟨.reply 400 msg, cors, some entry⟩
          | none => ⟨.forward req.body, cors, some entry⟩

/-! ## Claim theorems about the relay handler -/

/-- The invalid-body conditions named by the claim: no `contents` array (in
particular a non-object body), an empty or over-10-entry `contents` array, or
some part (an element of some entry's `parts` array) whose text measures more
than 8000 characters. -/
def claimedInvalidBody (body : JSValue) : Prop :=
  (∀ cs, jsGetField body "contents" ≠ .arr cs) ∨
  (∃ cs, jsGetField body "contents" = .arr cs ∧ (cs.length = 0 ∨ cs.length > 10)) ∨
  (∃ cs, jsGetField body "contents" = .arr cs ∧ ∃ c ∈ cs, ∃ ps,
    jsGetField c "parts" = .arr ps ∧ ∃ p ∈ ps, partTextLen p > 8000)

theorem jsObjectLike_of_getField_arr {body : JSValue} {k : String}
    {cs : List JSValue} (h : jsGetField body k = .arr cs) :
    jsObjectLike body = true := by
  cases body <;> first
    | rfl
    | simp [jsGetField] at h

theorem anyPartTooLongE_hit (ps : List JSValue)
    (h : ∃ p ∈ ps, partTextLen p > 8000) : anyPartTooLongE ps ≠ .ok false := by
  induction ps with
  | nil => simp at h
  | cons p rest ih =>
    rw [anyPartTooLongE]
    rcases h with ⟨q, hq, hlong⟩
    rcases List.mem_cons.mp hq with hq | hq
    · subst hq
      have hqn : partTooLongE q = .ok true := by
        cases q <;>
          simp_all [partTooLongE, partTextLen, jsGetField, jsOrEmptyStr, jsTruthy, jsToString]
      rw [hqn]
      intro hfalse
      cases hfalse
    · cases hp : partTooLongE p with
      | error e => intro hfalse; cases hfalse
      | ok b =>
        cases b
        · exact ih ⟨q, hq, hlong⟩
        · intro hfalse; cases hfalse

theorem anyEntryTooLongE_hit (cs : List JSValue)
    (h : ∃ c ∈ cs, ∃ ps, jsGetField c "parts" = .arr ps ∧
      ∃ p ∈ ps, partTextLen p > 8000) :
    anyEntryTooLongE cs ≠ .ok false := by
  induction cs with
  | nil => simp at h
  | cons c rest ih =>
    rw [anyEntryTooLongE]
    rcases h with ⟨d, hd, ps, hps, hlongs⟩
    rcases List.mem_cons.mp hd with hd | hd
    · subst hd
      have hobj : jsObjectLike d = true := jsObjectLike_of_getField_arr hps
      have hde : entryTooLongE d = anyPartTooLongE ps := by
        cases d <;> simp_all [entryTooLongE, jsObjectLike]
      rw [hde]
      cases hres : anyPartTooLongE ps with
      | error e => intro hfalse; cases hfalse
      | ok b =>
        cases b
        · exact absurd hres (anyPartTooLongE_hit ps hlongs)
        · intro hfalse; cases hfalse
    · cases he : entryTooLongE c with
      | error e => intro hfalse; cases hfalse
      | ok b =>
        cases b
        · exact ih ⟨d, hd, ps, hps, hlongs⟩
        · intro hfalse; cases hfalse

theorem validateBody_of_claimed (body : JSValue) (hb : claimedInvalidBody body) :
    ∃ msg, validateBody body = some msg := by
  rcases hb with h | ⟨cs, hcs, hlen⟩ | ⟨cs, hcs, hlong⟩
  · by_cases hobj : jsObjectLike body = true
    · cases hf : jsGetField body "contents" with
      | arr cs => exact absurd hf (h cs)
      | undefined => exact ⟨"Bad request: invalid contents", by simp [validateBody, hobj, hf]⟩
      | null => exact ⟨"Bad request: invalid contents", by simp [validateBody, hobj, hf]⟩
      | bool b => exact ⟨"Bad request: invalid contents", by simp [validateBody, hobj, hf]⟩
      | num n => exact ⟨"Bad request: invalid contents", by simp [validateBody, hobj, hf]⟩
      | str s => exact ⟨"Bad request: invalid contents", by simp [validateBody, hobj, hf]⟩
      | obj fs => exact ⟨"Bad request: invalid contents", by simp [validateBody, hobj, hf]⟩
    · have hobj' : jsObjectLike body = false := by
        cases hx : jsObjectLike body
        · rfl
        · exact absurd hx hobj
      exact ⟨"Bad request: missing JSON body", by simp [validateBody, hobj']⟩
  · have hobj := jsObjectLike_of_getField_arr hcs
    have hcond : (decide (cs.length = 0) || decide (cs.length > 10)) = true := by
      rcases hlen with hlen | hlen <;> simp [hlen]
    exact ⟨"Bad request: invalid contents", by simp [validateBody, hobj, hcs, hcond]⟩
  · have hobj := jsObjectLike_of_getField_arr hcs
    by_cases hcond : (decide (cs.length = 0) || decide (cs.length > 10)) = true
    · exact ⟨"Bad request: invalid contents", by simp [validateBody, hobj, hcs, hcond]⟩
    · have hne := anyEntryTooLongE_hit cs hlong
      cases hres : anyEntryTooLongE cs with
      | error e => exact ⟨"Bad request", by simp [validateBody, hobj, hcs, hcond, hres]⟩
      | ok b =>
        cases b
        · exact absurd hres hne
        · exact ⟨"Bad request: message too long",
            by simp [validateBody, hobj, hcs, hcond, hres]⟩

/-- C8: a POST request whose body has no `contents` array, or an empty or
over-10-entry one, or a part with more than 8000 characters of text, is
answered with status 400 and a JSON error body, and nothing is forwarded
upstream — provided the request reaches the validation stage (the server has
its key, the origin passes the allow-list, and the requester is under the
rate limit; otherwise those earlier gates answer 500/403/429 first, likewise
without forwarding). -/
theorem invalid_body_rejected_400 (env : RelayEnv) (now : Nat)
    (prev : Option RateEntry) (req : RelayRequest)
    (hm : req.method = "POST") (hk : env.apiKey.isSome = true)
    (ho : originBlocked env req = false)
    (hr : (bumpRateEntry env now prev).count ≤ env.rateLimitMax)
    (hb : claimedInvalidBody req.body) :
    ∃ msg, (handler env now prev req).outcome = .reply 400 msg := by
  obtain ⟨k, hkey⟩ := Option.isSome_iff_exists.mp hk
  obtain ⟨msg, hv⟩ := validateBody_of_claimed req.body hb
  have hnr : ¬((bumpRateEntry env now prev).count > env.rateLimitMax) := by omega
  refine ⟨msg, ?_⟩
  simp [handler, hm, hkey, ho, hv, hnr]

theorem invalid_body_rejected_400_witness :
    ∃ msg, (handler ⟨some "k", none, 60, 3600⟩ 0 none
      ⟨"POST", none, .obj []⟩).outcome = .reply 400 msg :=
  invalid_body_rejected_400 ⟨some "k", none, 60, 3600⟩ 0 none
    ⟨"POST", none, .obj []⟩ rfl rfl rfl (by decide)
    (Or.inl (fun cs h => by cases h))

/-- C10: every non-POST request is answered with status 405, the error body
`Method not allowed` and an `Allow: POST` header.  The result is a constant:
it does not depend on the body, the origin, the environment or the rate
state, and the rate-limit map is left untouched (`rateEntry = none`) — the
method check at lines 6-9 returns before the rate limiter, the validation and
the upstream call are reached. -/
theorem non_post_is_405 (env : RelayEnv) (now : Nat) (prev : Option RateEntry)
    (req : RelayRequest) (h : req.method ≠ "POST") :
    handler env now prev req =
      ⟨.reply 405 "Method not allowed", [("Allow", "POST")], none⟩ := by
  simp [handler, h]

theorem non_post_is_405_witness :
    handler ⟨some "k", none, 60, 3600⟩ 0 none ⟨"GET", some "https://a.example", .null⟩ =
      ⟨.reply 405 "Method not allowed", [("Allow", "POST")], none⟩ :=
  non_post_is_405 ⟨some "k", none, 60, 3600⟩ 0 none
    ⟨"GET", some "https://a.example", .null⟩ (by decide)

/-! ## Dispatch cascade (form submit handler, lines 451-587)

The cascade loop issues one network attempt per iteration against
`modelChoices[attemptIndex]`, classifies the failure in its `catch`
(lines 543-579) and either stops or advances to the next untried tier.

The model feeds the loop a list of per-iteration inputs (`AttemptStep`):
what the network attempt would deliver (`netOutcome` — for a successful
attempt it carries the sanitized text that line 540 appends, i.e.
`sanitizeAIText` applied to the extracted reply; a response with falsy `raw`
is a `failure "No response from model"`, line 488), whether the run's
cancellation token was aborted while this attempt's `fetch` was pending
(`abortDuringFetch` — an aborted `fetch` rejects with `AbortError`
regardless of what the server later answers), and whether it was aborted
during the ~600ms backoff after this attempt (`abortDuringBackoff`).

A backoff-time abort targets the `AbortController` of the attempt that has
already settled with the capacity failure (the shared
`currentAbortController` is only cleared by the per-iteration `finally` at
lines 580-583, which runs after the `await` of the backoff), and the next
iteration creates a fresh controller at line 483-484; the backoff promise at
line 561 does not observe the signal.  Aborting during the backoff therefore
has no effect on the cascade's control flow, which is why the loop below
never reads `abortDuringBackoff`. -/

/-- The model tier list (lines 122-128). -/
def modelChoices : List (String × String) :=
  [("gemini-2.5-pro", "2.5 Pro"),
   ("gemini-2.5-flash", "2.5 Flash"),
   ("gemini-2.5-flash-lite", "2.5 Flash-Lite"),
   ("gemini-2.0-flash", "2.0 Flash"),
   ("gemini-2.0-flash-lite", "2.0 Flash-Lite")]

/-- Does the needle start the haystack? (helper for substring search) -/
def listStartsWith : List Char → List Char → Bool
  | [], _ => true
  | _ :: _, [] => false
  | a :: as, b :: bs => a == b && listStartsWith as bs

/-- Does the needle occur contiguously in the haystack? -/
def listHasSub (needle : List Char) : List Char → Bool
  | [] => needle.isEmpty
  | c :: cs => listStartsWith needle (c :: cs) || listHasSub needle cs

/-- `s.includes(sub)` for JS strings. -/
def strContains (s sub : String) : Bool := listHasSub sub.toList s.toList

/-- `s.toLowerCase()`.  `Char.toLower` agrees with the JS behavior on the
ASCII error-signal substrings compared by the cascade. -/
def jsToLowerCase (s : String) : String := String.mk (s.toList.map Char.toLower)

/-- The capacity-exhaustion test of lines 550-552: `HTTP 429` (case
sensitive) or any of the lowercase signals in the lowercased message. -/
def isLimitMsg (msg : String) : Bool :=
  strContains msg "HTTP 429" ||
  strContains (jsToLowerCase msg) "rate limit" ||
  strContains (jsToLowerCase msg) "quota" ||
  strContains (jsToLowerCase msg) "resource_exhausted" ||
  strContains (jsToLowerCase msg) "resource exhausted" ||
  strContains (jsToLowerCase msg) "overload" ||
  strContains (jsToLowerCase msg) "overloaded"

/-- What one network attempt would deliver if not aborted. -/
inductive NetOutcome where
  | success (clean : String)
  | failure (msg : String)

/-- The per-iteration inputs of one cascade run (see the section comment). -/
structure AttemptStep where
  netOutcome : NetOutcome
  abortDuringFetch : Bool
  abortDuringBackoff : Bool

/-- Terminal states of a cascade run.  `starved` is a model artifact: the
input list ran out while the loop wanted another iteration (never reached
when at least `modelChoices.length` steps are supplied). -/
inductive CascadeState where
  | succeeded
  | cancelled
  | exhausted
  | failed (msg : String)
  | starved

structure CascadeResult where
  state : CascadeState
  trace : List Nat
  store : Option JSValue
  selected : Nat
  assistant : Option String

/-- The fallback search of lines 554-557: the first index after
`attemptIndex` and below `modelChoices.length` not yet attempted. -/
def findNextTier (attempted : List Nat) (i : Nat) : Option Nat :=
  (List.range' (i + 1) (modelChoices.length - (i + 1))).find?
    (fun c => !attempted.contains c)

/-- The `while(true)` loop of lines 477-584.  Per iteration: record the
attempt (`attempted.add`), make the visible selection follow the cascade
(`selectedModelIndex = attemptIndex`, lines 479-482), issue the attempt, and
classify: an aborted fetch or an error message containing `abort` is
cancellation (lines 545-549); a capacity signal searches the next untried
tier and either continues after the backoff (lines 553-562, during which an
abort is ineffective — see the section comment) or exhausts (lines 563-567);
success appends the assistant turn (line 540); any other failure stops the
run (lines 568-578). -/
def cascadeLoop : List AttemptStep → Nat → List Nat → Nat → Option JSValue →
    List Nat → CascadeResult
  | [], _, _, selected, store, trace => ⟨.starved, trace, store, selected, none⟩
  | step :: rest, attemptIndex, attempted, _, store, trace =>
    let attempted' := attemptIndex :: attempted
    let trace' := trace ++ [attemptIndex]
    if step.abortDuringFetch then
      ⟨.cancelled, trace', store, attemptIndex, none⟩
    else
      match step.netOutcome with
      | .success clean =>
        ⟨.succeeded, trace',
          addMessageToHistory store (some "assistant") (some clean),
          attemptIndex, some clean⟩
      | .failure msg =>
        if strContains (jsToLowerCase msg) "abort" then
          ⟨.cancelled, trace', store, attemptIndex, none⟩
        else if isLimitMsg msg then
          match findNextTier attempted' attemptIndex with
          | some found => cascadeLoop rest found attempted' attemptIndex store trace'
          | none => ⟨.exhausted, trace', store, attemptIndex, none⟩
        else ⟨.failed msg, trace', store, attemptIndex, none⟩

/-- The submit handler around the loop (lines 464-477): the user turn is
persisted before the first attempt (line 470), `attempted` starts empty and
`attemptIndex` starts at the currently selected tier (lines 471-472). -/
def submitRun (store0 : Option JSValue) (text : String) (selected0 : Nat)
    (steps : List AttemptStep) : CascadeResult :=
  cascadeLoop steps selected0 [] selected0
    (addMessageToHistory store0 (some "user") (some text)) []

/-- An attempt step classified by the loop as a capacity-exhaustion failure:
not aborted mid-fetch, and a network error whose message carries a capacity
signal and does not contain `abort` (which the branch at line 545 would
intercept first). -/
def isCapacityStep (st : AttemptStep) : Prop :=
  st.abortDuringFetch = false ∧
  ∃ msg, st.netOutcome = .failure msg ∧
    strContains (jsToLowerCase msg) "abort" = false ∧ isLimitMsg msg = true

/-! ## Claim theorems about the dispatch cascade -/

/-- C2: with the 5-tier list and `selectedIndex` starting at 0, a run whose
every attempt fails with a capacity-exhaustion error issues exactly 5
attempts targeting tiers 0, 1, 2, 3, 4 in that order (each tier once, no
revisit, no wrap-around), then terminates in the all-tiers-exhausted state
with `selectedIndex = 4` and no assistant turn appended (the store is
unchanged by the run). -/
theorem all_capacity_failures_walk_all_tiers
    (s0 s1 s2 s3 s4 : AttemptStep) (store : Option JSValue)
    (hcap : ∀ st ∈ [s0, s1, s2, s3, s4], isCapacityStep st) :
    (cascadeLoop [s0, s1, s2, s3, s4] 0 [] 0 store []).trace = [0, 1, 2, 3, 4] ∧
    (cascadeLoop [s0, s1, s2, s3, s4] 0 [] 0 store []).state = .exhausted ∧
    (cascadeLoop [s0, s1, s2, s3, s4] 0 [] 0 store []).selected = 4 ∧
    (cascadeLoop [s0, s1, s2, s3, s4] 0 [] 0 store []).assistant = none ∧
    (cascadeLoop [s0, s1, s2, s3, s4] 0 [] 0 store []).store = store := by
  obtain ⟨ha0, m0, hn0, hb0, hl0⟩ := hcap s0 (by simp)
  obtain ⟨ha1, m1, hn1, hb1, hl1⟩ := hcap s1 (by simp)
  obtain ⟨ha2, m2, hn2, hb2, hl2⟩ := hcap s2 (by simp)
  obtain ⟨ha3, m3, hn3, hb3, hl3⟩ := hcap s3 (by simp)
  obtain ⟨ha4, m4, hn4, hb4, hl4⟩ := hcap s4 (by simp)
  have f0 : findNextTier [0] 0 = some 1 := rfl
  have f1 : findNextTier [1, 0] 1 = some 2 := rfl
  have f2 : findNextTier [2, 1, 0] 2 = some 3 := rfl
  have f3 : findNextTier [3, 2, 1, 0] 3 = some 4 := rfl
  have f4 : findNextTier [4, 3, 2, 1, 0] 4 = none := rfl
  have key : cascadeLoop [s0, s1, s2, s3, s4] 0 [] 0 store [] =
      ⟨.exhausted, [0, 1, 2, 3, 4], store, 4, none⟩ := by
    simp [cascadeLoop, ha0, hn0, hb0, hl0, ha1, hn1, hb1, hl1, ha2, hn2, hb2, hl2,
      ha3, hn3, hb3, hl3, ha4, hn4, hb4, hl4, f0, f1, f2, f3, f4]
  rw [key]
  exact ⟨rfl, rfl, rfl, rfl, rfl⟩

/-- A concrete capacity failure: HTTP 429 from the relay. -/
def capacityFailStep : AttemptStep := ⟨.failure "HTTP 429", false, false⟩

theorem all_capacity_failures_walk_all_tiers_witness :
    (cascadeLoop [capacityFailStep, capacityFailStep, capacityFailStep,
      capacityFailStep, capacityFailStep] 0 [] 0 none []).trace = [0, 1, 2, 3, 4] ∧
    (cascadeLoop [capacityFailStep, capacityFailStep, capacityFailStep,
      capacityFailStep, capacityFailStep] 0 [] 0 none []).state = .exhausted ∧
    (cascadeLoop [capacityFailStep, capacityFailStep, capacityFailStep,
      capacityFailStep, capacityFailStep] 0 [] 0 none []).selected = 4 ∧
    (cascadeLoop [capacityFailStep, capacityFailStep, capacityFailStep,
      capacityFailStep, capacityFailStep] 0 [] 0 none []).assistant = none ∧
    (cascadeLoop [capacityFailStep, capacityFailStep, capacityFailStep,
      capacityFailStep, capacityFailStep] 0 [] 0 none []).store = none :=
  all_capacity_failures_walk_all_tiers capacityFailStep capacityFailStep
    capacityFailStep capacityFailStep capacityFailStep none (by
      intro st hst
      simp only [List.mem_cons, List.not_mem_nil, or_false] at hst
      rcases hst with rfl | rfl | rfl | rfl | rfl <;>
        exact ⟨rfl, "HTTP 429", rfl, by decide, by decide⟩)

/-- A capacity failure whose backoff is interrupted by an abort of the
current cancellation token. -/
def backoffAbortStep : AttemptStep := ⟨.failure "HTTP 429", false, true⟩

/-- A subsequent attempt that succeeds. -/
def successStep : AttemptStep := ⟨.success "ok", false, false⟩

/-- C3 counterexample: the cancellation token is aborted while the run waits
in the ~600ms backoff after a capacity-exhausted attempt at tier 0
(`backoffAbortStep.abortDuringBackoff = true`), yet the subsequent network
attempt at tier 1 is still issued — the trace is `[0, 1]`, and the run even
succeeds and appends an assistant turn.  The backoff promise (line 561) does
not observe the signal, and the next iteration creates a fresh
`AbortController` (lines 483-484) after the `finally` (lines 580-583)
cleared the shared reference, so the abort lands on the already-settled
attempt's controller and stops nothing. -/
theorem abort_during_backoff_does_not_stop_run :
    backoffAbortStep.abortDuringBackoff = true ∧
    (cascadeLoop [backoffAbortStep, successStep] 0 [] 0 none []).trace = [0, 1] ∧
    (cascadeLoop [backoffAbortStep, successStep] 0 [] 0 none []).state = .succeeded ∧
    (cascadeLoop [backoffAbortStep, successStep] 0 [] 0 none []).assistant = some "ok" := by
  refine ⟨rfl, ?_, ?_, ?_⟩ <;> rfl

/-- C3 amended: aborting the cancellation token during the backoff delay does
not prevent the subsequent attempt.  After a capacity-exhausted attempt at
tier `i` with an untried tier `f` remaining, the run continues with an
attempt at tier `f` whose outcome is the next step's — uniformly in the
backoff-abort flag `b`, which does not occur on the right-hand side.  Only an
abort that fires while an attempt's `fetch` is pending (modelled by
`abortDuringFetch`) terminates the run as cancelled. -/
theorem abort_during_backoff_irrelevant (msg : String) (b : Bool)
    (rest : List AttemptStep) (i : Nat) (att : List Nat) (sel : Nat)
    (store : Option JSValue) (tr : List Nat)
    (hb : strContains (jsToLowerCase msg) "abort" = false)
    (hl : isLimitMsg msg = true)
    (f : Nat) (hf : findNextTier (i :: att) i = some f) :
    cascadeLoop (⟨.failure msg, false, b⟩ :: rest) i att sel store tr =
      cascadeLoop rest f (i :: att) i store (tr ++ [i]) := by
  simp [cascadeLoop, hb, hl, hf]

theorem abort_during_backoff_irrelevant_witness :
    cascadeLoop [⟨.failure "HTTP 429", false, true⟩, successStep] 0 [] 0 none [] =
      cascadeLoop [successStep] 1 [0] 0 none [0] :=
  abort_during_backoff_irrelevant "HTTP 429" true [successStep] 0 [] 0 none []
    (by decide) (by decide) 1 rfl

/-- C4: an attempt whose fetch is aborted mid-flight terminates the run as
cancelled — with an arbitrary `netOutcome`, covering a cancelled network
call that would eventually have resolved (an aborted `fetch` rejects with
`AbortError` either way).  No assistant turn is appended, the store at run
start (which contains the user turn persisted at submission time, line 470 /
`submitRun`) is untouched, and the trace ends at this attempt: no further
attempt is issued.  The quantified `att`/`sel`/`tr`/`store` cover an abort at
any later iteration of a run, since the loop's remaining behavior depends
only on that carried state. -/
theorem cancelled_attempt_appends_nothing (s : AttemptStep)
    (rest : List AttemptStep) (i : Nat) (att : List Nat) (sel : Nat)
    (store : Option JSValue) (tr : List Nat)
    (h : s.abortDuringFetch = true) :
    (cascadeLoop (s :: rest) i att sel store tr).state = .cancelled ∧
    (cascadeLoop (s :: rest) i att sel store tr).assistant = none ∧
    (cascadeLoop (s :: rest) i att sel store tr).store = store ∧
    (cascadeLoop (s :: rest) i att sel store tr).trace = tr ++ [i] := by
  simp [cascadeLoop, h]

theorem cancelled_attempt_appends_nothing_witness :
    (cascadeLoop [⟨.success "late reply", true, false⟩] 2 [0, 1] 2
      (some (.arr [.obj [("role", .str "user"), ("text", .str "hi")]])) [0, 1]).state
        = .cancelled ∧
    (cascadeLoop [⟨.success "late reply", true, false⟩] 2 [0, 1] 2
      (some (.arr [.obj [("role", .str "user"), ("text", .str "hi")]])) [0, 1]).assistant
        = none ∧
    (cascadeLoop [⟨.success "late reply", true, false⟩] 2 [0, 1] 2
      (some (.arr [.obj [("role", .str "user"), ("text", .str "hi")]])) [0, 1]).store
        = some (.arr [.obj [("role", .str "user"), ("text", .str "hi")]]) ∧
    (cascadeLoop [⟨.success "late reply", true, false⟩] 2 [0, 1] 2
      (some (.arr [.obj [("role", .str "user"), ("text", .str "hi")]])) [0, 1]).trace
        = [0, 1] ++ [2] :=
  cancelled_attempt_appends_nothing ⟨.success "late reply", true, false⟩ [] 2 [0, 1] 2
    (some (.arr [.obj [("role", .str "user"), ("text", .str "hi")]])) [0, 1] rfl

end Celebra
